import Mathlib

/-!
Verification development for the `problem_details` crate: an RFC 9457 / RFC 7807
problem-details data model with JSON and XML encodings.

The development shallowly embeds the Rust sources:
  * `src/problem_type.rs`       — the `ProblemType` wrapper around a URI.
  * `src/problem_details.rs`    — the `ProblemDetails<Ext>` record, its factories,
    builder methods and `Display` implementation.
  * `src/serde.rs`              — the custom optional status / optional URI codecs.
  * `src/problem_details/json.rs` and `src/problem_details/xml.rs` — body encoders.
  * `src/axum.rs`               — the response-building collaborator.

External dependencies (the `http` crate, `serde`/`serde_json`, `quick_xml`) are
modelled at the level of their documented contracts; each such model carries a
doc comment naming the dependency it stands for.
-/

/-- A JSON value, as produced and consumed by `serde_json`.  Numbers are
modelled as integers: every number appearing in the claims is integral, and the
status visitor in `src/serde.rs` has no floating-point path. -/
inductive Json where
  | null : Json
  | bool (b : Bool) : Json
  | num (i : Int) : Json
  | str (s : String) : Json
  | arr (elems : List Json) : Json
  | obj (fields : List (String × Json)) : Json

/-- The `serde::de::Unexpected` classification carried by decode failures,
identifying the offending input value. -/
inductive Unexpected where
  | boolVal (b : Bool) : Unexpected
  | unsigned (n : Nat) : Unexpected
  | signed (i : Int) : Unexpected
  | str (s : String) : Unexpected
  | unit : Unexpected
  | seq : Unexpected
  | map : Unexpected
deriving DecidableEq, Repr

/-- The `Unexpected` classification `serde_json` reports for a JSON value. -/
def unexpectedOf : Json → Unexpected
  | .null => .unit
  | .bool b => .boolVal b
  | .num i => if 0 ≤ i then .unsigned i.toNat else .signed i
  | .str s => .str s
  | .arr _ => .seq
  | .obj _ => .map

/-- A decode failure, as raised through `serde::de::Error` by the visitors in
`src/serde.rs` and by the derived record decoder. -/
inductive DeError where
  | invalidValue (unexp : Unexpected) (expected : String) : DeError
  | invalidType (unexp : Unexpected) (expected : String) : DeError
  | missingField (field : String) : DeError
  | custom (msg : String) : DeError
deriving DecidableEq, Repr

/-- The error type of `src/problem_details/json.rs` (`JsonError`), wrapping the
message of a `serde_json::Error`. -/
inductive JsonError where
  | Serialization (msg : String) : JsonError
deriving DecidableEq, Repr

/-- The error type of `src/problem_details/xml.rs` (`XmlError`), wrapping the
message of a `quick_xml::SeError`. -/
inductive XmlError where
  | Serialization (msg : String) : XmlError
deriving DecidableEq, Repr

/-- Modelled from the `http` crate dependency: well-formedness of a URI
reference in canonical string form.  The full URI grammar of `http::Uri` is
abstracted to the checks relevant here: the input is nonempty and consists of
visible ASCII characters.  Every URI literal appearing in the repository and in
the claims satisfies this check. -/
def uriWellFormed (s : String) : Bool :=
  !s.data.isEmpty && s.data.all (fun c => 32 < c.toNat && c.toNat < 127)

/-- Modelled from the `http` crate dependency: a parsed `http::Uri`,
represented by its canonical string form together with its validity. -/
abbrev Uri := { s : String // uriWellFormed s = true }

/-- Modelled from the `http` crate dependency: `str::parse::<Uri>`.
Parsing succeeds exactly on well-formed input and returns the URI whose
canonical string form is the input. -/
def Uri.parse (s : String) : Except String Uri :=
  if h : uriWellFormed s = true then .ok ⟨s, h⟩ else .error s

/-- Embeds `ProblemType` from `src/problem_type.rs`: a wrapper around `http::Uri`. -/
structure ProblemType where
  uri : Uri
deriving DecidableEq

/-- Embeds `Default for ProblemType` from `src/problem_type.rs`: the literal
`about:blank`. -/
def ProblemType.default : ProblemType :=
  ⟨⟨"about:blank", by decide⟩⟩

/-- Embeds `Display for ProblemType` from `src/problem_type.rs`: the canonical string
form of the wrapped URI. -/
def ProblemType.displayString (t : ProblemType) : String :=
  t.uri.val

/-- Modelled from the `http` crate dependency: `http::StatusCode`, which holds
a code that is at least 100 and less than 1000 (the documented contract of
`StatusCode::from_u16`). -/
abbrev StatusCode := { n : Nat // 100 ≤ n ∧ n < 1000 }

/-- Modelled from the `http` crate dependency: `StatusCode::from_u16`, which
accepts exactly the codes in `[100, 999]`. -/
def StatusCode.from_u16 (src : Nat) : Option StatusCode :=
  if h : 100 ≤ src ∧ src < 1000 then some ⟨src, h⟩ else none

/-- Modelled from the `http` crate dependency: `StatusCode::as_u16`. -/
def StatusCode.as_u16 (s : StatusCode) : Nat :=
  s.val

/-- Modelled from the `http` crate dependency: the canonical reason phrase
table of `http::StatusCode::canonical_reason`. -/
def canonicalReasonPhrase : Nat → Option String
  | 100 => some "Continue"
  | 101 => some "Switching Protocols"
  | 102 => some "Processing"
  | 103 => some "Early Hints"
  | 200 => some "OK"
  | 201 => some "Created"
  | 202 => some "Accepted"
  | 203 => some "Non Authoritative Information"
  | 204 => some "No Content"
  | 205 => some "Reset Content"
  | 206 => some "Partial Content"
  | 207 => some "Multi-Status"
  | 208 => some "Already Reported"
  | 226 => some "IM Used"
  | 300 => some "Multiple Choices"
  | 301 => some "Moved Permanently"
  | 302 => some "Found"
  | 303 => some "See Other"
  | 304 => some "Not Modified"
  | 305 => some "Use Proxy"
  | 307 => some "Temporary Redirect"
  | 308 => some "Permanent Redirect"
  | 400 => some "Bad Request"
  | 401 => some "Unauthorized"
  | 402 => some "Payment Required"
  | 403 => some "Forbidden"
  | 404 => some "Not Found"
  | 405 => some "Method Not Allowed"
  | 406 => some "Not Acceptable"
  | 407 => some "Proxy Authentication Required"
  | 408 => some "Request Timeout"
  | 409 => some "Conflict"
  | 410 => some "Gone"
  | 411 => some "Length Required"
  | 412 => some "Precondition Failed"
  | 413 => some "Payload Too Large"
  | 414 => some "URI Too Long"
  | 415 => some "Unsupported Media Type"
  | 416 => some "Range Not Satisfiable"
  | 417 => some "Expectation Failed"
  | 418 => some "I\x27m a teapot"
  | 421 => some "Misdirected Request"
  | 422 => some "Unprocessable Entity"
  | 423 => some "Locked"
  | 424 => some "Failed Dependency"
  | 425 => some "Too Early"
  | 426 => some "Upgrade Required"
  | 428 => some "Precondition Required"
  | 429 => some "Too Many Requests"
  | 431 => some "Request Header Fields Too Large"
  | 451 => some "Unavailable For Legal Reasons"
  | 500 => some "Internal Server Error"
  | 501 => some "Not Implemented"
  | 502 => some "Bad Gateway"
  | 503 => some "Service Unavailable"
  | 504 => some "Gateway Timeout"
  | 505 => some "HTTP Version Not Supported"
  | 506 => some "Variant Also Negotiates"
  | 507 => some "Insufficient Storage"
  | 508 => some "Loop Detected"
  | 510 => some "Not Extended"
  | 511 => some "Network Authentication Required"
  | _ => none

/-- Modelled from the `http` crate dependency:
`StatusCode::canonical_reason`. -/
def StatusCode.canonical_reason (s : StatusCode) : Option String :=
  canonicalReasonPhrase s.val

/-- Embeds `ProblemDetails<Ext>` from `src/problem_details.rs`: five independently
optional reserved fields plus an extension payload that is flattened into the
same envelope at encode time. -/
structure ProblemDetails (Ext : Type) where
  type : Option ProblemType
  status : Option StatusCode
  title : Option String
  detail : Option String
  «instance» : Option Uri
  extensions : Ext

/-- Embeds `ProblemDetails::new` from `src/problem_details.rs`: the empty problem
details value. -/
def ProblemDetails.new : ProblemDetails Unit :=
  { type := none
    status := none
    title := none
    detail := none
    «instance» := none
    extensions := () }

/-- Embeds `ProblemDetails::from_status_code` from `src/problem_details.rs`. -/
def ProblemDetails.from_status_code (status : StatusCode) : ProblemDetails Unit :=
  { type := none
    status := some status
    title := status.canonical_reason
    detail := none
    «instance» := none
    extensions := () }

/-- Embeds `ProblemDetails::with_type` from `src/problem_details.rs`. -/
def ProblemDetails.with_type {Ext : Type} (p : ProblemDetails Ext) (type : ProblemType) :
    ProblemDetails Ext :=
  { p with type := some type }

/-- Embeds `ProblemDetails::with_status` from `src/problem_details.rs`. -/
def ProblemDetails.with_status {Ext : Type} (p : ProblemDetails Ext) (status : StatusCode) :
    ProblemDetails Ext :=
  { p with status := some status }

/-- Embeds `ProblemDetails::with_title` from `src/problem_details.rs`. -/
def ProblemDetails.with_title {Ext : Type} (p : ProblemDetails Ext) (title : String) :
    ProblemDetails Ext :=
  { p with title := some title }

/-- Embeds `ProblemDetails::with_detail` from `src/problem_details.rs`. -/
def ProblemDetails.with_detail {Ext : Type} (p : ProblemDetails Ext) (detail : String) :
    ProblemDetails Ext :=
  { p with detail := some detail }

/-- Embeds `ProblemDetails::with_instance` from `src/problem_details.rs`. -/
def ProblemDetails.with_instance {Ext : Type} (p : ProblemDetails Ext) (inst : Uri) :
    ProblemDetails Ext :=
  { p with «instance» := some inst }

/-- Embeds `ProblemDetails::with_extensions` from `src/problem_details.rs`: replaces
the extension payload, possibly changing its type. -/
def ProblemDetails.with_extensions {Ext NewExt : Type} (p : ProblemDetails Ext)
    (extensions : NewExt) : ProblemDetails NewExt :=
  { type := p.type
    status := p.status
    title := p.title
    detail := p.detail
    «instance» := p.«instance»
    extensions := extensions }

/-- Embeds `Display for ProblemDetails` from `src/problem_details.rs`, transcribed
write by write: the bracketed type/status head, then the resolved title, then
the detail with a colon exactly when a title was written. -/
def ProblemDetails.displayString {Ext : Type} (p : ProblemDetails Ext) : String :=
  let type := p.type.getD ProblemType.default
  let out := "[" ++ type.displayString
  let out :=
    match p.status with
    | some status => out ++ " " ++ toString status.as_u16 ++ "]"
    | none => out ++ "]"
  let title :=
    match p.title with
    | some t => some t
    | none => p.status.bind StatusCode.canonical_reason
  let out :=
    match title with
    | some t => out ++ " " ++ t
    | none => out
  match p.detail with
  | some detail => (if title.isSome then out ++ ":" else out) ++ " " ++ detail
  | none => out

/-- The four-step human-summary algorithm exactly as worded in the
specification (section 4.5), to be compared with the transcription of the
source `Display` implementation. -/
def ProblemDetails.displaySpecString {Ext : Type} (p : ProblemDetails Ext) : String :=
  let typeStr :=
    match p.type with
    | some t => t.displayString
    | none => "about:blank"
  let step1 :=
    match p.status with
    | some status => "[" ++ typeStr ++ " " ++ toString status.as_u16 ++ "]"
    | none => "[" ++ typeStr ++ "]"
  let titleResolved :=
    match p.title with
    | some t => some t
    | none =>
      match p.status with
      | some status => status.canonical_reason
      | none => none
  let step3 :=
    match titleResolved with
    | some t => " " ++ t
    | none => ""
  let step4 :=
    match p.detail with
    | some d => if titleResolved.isSome then ": " ++ d else " " ++ d
    | none => ""
  step1 ++ step3 ++ step4

/-- The five reserved JSON member names of `ProblemDetails`. -/
def reservedNames : List String :=
  ["type", "status", "title", "detail", "instance"]

/-- First-match association lookup in a JSON object field list. -/
def jsonLookup (k : String) : List (String × Json) → Option Json
  | [] => none
  | (k', v) :: rest => if k' = k then some v else jsonLookup k rest

/-- The serialized form of one optional record field: present fields appear
under their key, absent fields contribute nothing
(`serde(skip_serializing_if = "Option::is_none")` in `src/problem_details.rs`). -/
def optionalField (k : String) : Option Json → List (String × Json)
  | some v => [(k, v)]
  | none => []

/-- The reserved-field part of the serialized `ProblemDetails` object, in the
declaration order of `src/problem_details.rs`: `type`, `status`, `title`,
`detail`, `instance`.  The `type` and `instance` URIs serialize to their
canonical strings (`src/serde.rs` / `http_serde`), the status to its numeric
code. -/
def reservedJson {Ext : Type} (p : ProblemDetails Ext) : List (String × Json) :=
  optionalField "type" (p.type.map fun t => .str t.uri.val) ++
  optionalField "status" (p.status.map fun s => .num s.as_u16) ++
  optionalField "title" (p.title.map .str) ++
  optionalField "detail" (p.detail.map .str) ++
  optionalField "instance" (p.«instance».map fun u => .str u.val)

/-- Modelled from the `serde` dependency: the flattening step applied to the
`extensions` field (`serde(flatten)` in `src/problem_details.rs`).  An
object-shaped payload contributes its fields; a unit-like payload (serialized
as `null`) contributes nothing; anything else is rejected with the
`serde` flatten error. -/
def flattenExtensions : Json → Except JsonError (List (String × Json))
  | .obj fields => .ok fields
  | .null => .ok []
  | _ => .error (.Serialization "can only flatten structs and maps")

/-- The JSON encoder of `src/problem_details/json.rs`
(`JsonProblemDetails::to_body_string`), at the level of the JSON object it
prints: the reserved fields followed by the flattened extension fields, or the
serialization error raised by the flatten step. -/
def serializeProblemDetails {Ext : Type} (ser : Ext → Json) (p : ProblemDetails Ext) :
    Except JsonError Json :=
  match flattenExtensions (ser p.extensions) with
  | .ok extFields => .ok (.obj (reservedJson p ++ extFields))
  | .error e => .error e

/-- Embeds `StatusVisitor::visit_u16` from `src/serde.rs`: `StatusCode::from_u16`,
with failure reported as an invalid-value error carrying the offending code. -/
def statusVisitU16 (val : Nat) : Except DeError (Option StatusCode) :=
  match StatusCode.from_u16 val with
  | some statusCode => .ok (some statusCode)
  | none => .error (.invalidValue (.unsigned val) "valid status code")

/-- Embeds `StatusVisitor::visit_u64` from `src/serde.rs`: a `u16` conversion followed
by `visit_u16`; an out-of-range conversion is an invalid-value error carrying
the offending integer. -/
def statusVisitU64 (val : Nat) : Except DeError (Option StatusCode) :=
  if val < 65536 then statusVisitU16 val
  else .error (.invalidValue (.unsigned val) "valid status code")

/-- Embeds `StatusVisitor::visit_i64` from `src/serde.rs`: a `u16` conversion followed
by `visit_u16`; an out-of-range conversion is an invalid-value error carrying
the offending integer. -/
def statusVisitI64 (val : Int) : Except DeError (Option StatusCode) :=
  if 0 ≤ val ∧ val < 65536 then statusVisitU16 val.toNat
  else .error (.invalidValue (.signed val) "valid status code")

/-- Embeds `serde::status::opt::deserialize` from `src/serde.rs`, applied to the JSON
value found under the `status` key: `serde_json` dispatches a nonnegative
integer to `visit_u64`, a negative integer to `visit_i64`, and reports an
invalid type for every non-number (the visitor expects a
`valid status code`). -/
def statusOptDeserialize : Json → Except DeError (Option StatusCode)
  | .num i => if 0 ≤ i then statusVisitU64 i.toNat else statusVisitI64 i
  | j => .error (.invalidType (unexpectedOf j) "valid status code")

/-- Embeds `UriVisitor::visit_str` from `src/serde.rs`, applied to the JSON value
found under the `instance` key (`serde::uri::opt::deserialize`): a string is
parsed as a URI, a parse failure is an invalid-value error carrying the
offending string, and every non-string is an invalid type. -/
def uriOptDeserialize : Json → Except DeError (Option Uri)
  | .str s =>
    match Uri.parse s with
    | .ok u => .ok (some u)
    | .error _ => .error (.invalidValue (.str s) "valid uri")
  | j => .error (.invalidType (unexpectedOf j) "valid uri")

/-- The decoder of the `type` field: an `Option<ProblemType>` whose inner URI
is decoded by `serde::uri::deserialize` from `src/serde.rs`.  A JSON `null`
decodes to the absent state, a string is parsed as a URI, and everything else
is an invalid type. -/
def typeOptDeserialize : Json → Except DeError (Option ProblemType)
  | .null => .ok none
  | .str s =>
    match Uri.parse s with
    | .ok u => .ok (some ⟨u⟩)
    | .error _ => .error (.invalidValue (.str s) "valid uri")
  | j => .error (.invalidType (unexpectedOf j) "valid uri")

/-- The decoder of the `title` and `detail` fields (`Option<String>` with the
derived `serde` implementation): `null` is absent, a string is present, and
everything else is an invalid type. -/
def stringOptDeserialize : Json → Except DeError (Option String)
  | .null => .ok none
  | .str s => .ok (some s)
  | j => .error (.invalidType (unexpectedOf j) "a string")

/-- One optional reserved field of the record decoder: a wholly absent key
decodes to the absent state without error (`serde(default)` in
`src/problem_details.rs`); a present key runs the field codec on its value. -/
def decodeField {α : Type} (decode : Json → Except DeError (Option α))
    (entry : Option Json) : Except DeError (Option α) :=
  match entry with
  | none => .ok none
  | some v => decode v

/-- The derived JSON decoder of `ProblemDetails<Ext>` from
`src/problem_details.rs`: each reserved key is decoded by its field codec, a
missing reserved key defaults to the absent state, and all remaining keys are
handed to the extension decoder (`serde(flatten)`). -/
def deserializeProblemDetails {Ext : Type}
    (de : List (String × Json) → Except DeError Ext) :
    Json → Except DeError (ProblemDetails Ext)
  | .obj fields => do
    let type ← decodeField typeOptDeserialize (jsonLookup "type" fields)
    let status ← decodeField statusOptDeserialize (jsonLookup "status" fields)
    let title ← decodeField stringOptDeserialize (jsonLookup "title" fields)
    let detail ← decodeField stringOptDeserialize (jsonLookup "detail" fields)
    let inst ← decodeField uriOptDeserialize (jsonLookup "instance" fields)
    let extensions ← de (fields.filter fun kv => !reservedNames.contains kv.1)
    .ok
      { type := type
        status := status
        title := title
        detail := detail
        «instance» := inst
        extensions := extensions }
  | j => .error (.invalidType (unexpectedOf j) "struct ProblemDetails")

/-- Modelled from the `quick_xml` dependency: the escaping its serializer
applies to element text content. -/
def xmlEscapeChar (c : Char) : String :=
  if c = '&' then "&amp;"
  else if c = '<' then "&lt;"
  else if c = '>' then "&gt;"
  else String.singleton c

/-- Escape a whole text node. -/
def xmlEscape (s : String) : String :=
  s.data.foldl (fun acc c => acc ++ xmlEscapeChar c) ""

/-- Modelled from the `quick_xml` dependency: validity of an XML element
name, abstracted to the character classes relevant here. -/
def xmlNameOk (s : String) : Bool :=
  match s.data with
  | [] => false
  | c :: rest =>
    (c.isAlpha || c = '_') &&
      rest.all (fun c' => c'.isAlphanum || c' = '_' || c' = '-' || c' = '.')

/-- One serialized child element. -/
def renderXmlElement (k v : String) : String :=
  "<" ++ k ++ ">" ++ xmlEscape v ++ "</" ++ k ++ ">"

/-- Modelled from the spec: `quick_xml::se::to_string_with_root`, whose source
is not part of the repository.  Following section 4.7 of the specification, it
renders a root element whose children are one element per field of the
flattened record, in field order, each omitted field contributing nothing; a
field whose name is not a representable element name raises the serialization
error; the fully-empty record renders as an open tag immediately followed by a
close tag. -/
def to_string_with_root (root : String) (fields : List (String × String)) :
    Except XmlError String :=
  if fields.all (fun kv => xmlNameOk kv.1) then
    .ok ("<" ++ root ++ ">" ++
      String.join (fields.map fun kv => renderXmlElement kv.1 kv.2) ++
      "</" ++ root ++ ">")
  else
    .error (.Serialization "invalid XML element name")

/-- The reserved-field part of the serde representation handed to the XML
serializer, in the declaration order of `src/problem_details.rs`: `type`,
`status`, `title`, `detail`, `instance`, each omitted if absent. -/
def reservedXmlFields {Ext : Type} (p : ProblemDetails Ext) : List (String × String) :=
  (match p.type with
    | some t => [("type", t.displayString)]
    | none => []) ++
  (match p.status with
    | some s => [("status", toString s.as_u16)]
    | none => []) ++
  (match p.title with
    | some t => [("title", t)]
    | none => []) ++
  (match p.detail with
    | some d => [("detail", d)]
    | none => []) ++
  (match p.«instance» with
    | some u => [("instance", u.val)]
    | none => [])

/-- The XML declaration prefix written by
`XmlProblemDetails::to_body_string` in `src/problem_details/xml.rs`. -/
def XML_DECLARATION : String :=
  "<?xml version=\"1.0\" encoding=\"UTF-8\"?>"

/-- The XML encoder of `src/problem_details/xml.rs`
(`XmlProblemDetails::to_body_string`): the record is serialized with root
element `problem` and the declaration is prepended with no inserted
whitespace; a serialization failure is surfaced as `XmlError::Serialization`.
The extension payload contributes its flattened fields through `serx`. -/
def XmlProblemDetails.to_body_string {Ext : Type}
    (serx : Ext → Except XmlError (List (String × String))) (p : ProblemDetails Ext) :
    Except XmlError String :=
  match serx p.extensions with
  | .error e => .error e
  | .ok extFields =>
    match to_string_with_root "problem" (reservedXmlFields p ++ extFields) with
    | .ok xml => .ok (XML_DECLARATION ++ xml)
    | .error e => .error e

/-- Modelled from the `http` crate dependency:
`StatusCode::INTERNAL_SERVER_ERROR`. -/
def STATUS_INTERNAL_SERVER_ERROR : StatusCode :=
  ⟨500, by omega⟩

/-- The status accessor exposed to the HTTP-serving collaborators
(`fn status` in `src/poem.rs`, and the inline
`self.0.status.unwrap_or(StatusCode::INTERNAL_SERVER_ERROR)` of
`src/axum.rs` and `src/actix.rs`). -/
def ProblemDetails.statusOr500 {Ext : Type} (p : ProblemDetails Ext) : StatusCode :=
  p.status.getD STATUS_INTERNAL_SERVER_ERROR

/-- An HTTP response as built by the axum integration: a transport status
line, headers, and a body. -/
structure AxumResponse (Body : Type) where
  status : Nat
  headers : List (String × String)
  body : Body

/-- Embeds `impl IntoResponse for JsonProblemDetails` from `src/axum.rs`: the
transport status line is the `status` field or 500 when absent, the
content type is `application/problem+json`, and the body is the serialized
JSON object.  The axum wrapper is specific to the unit extension payload,
for which serialization always succeeds. -/
def axumJsonIntoResponse (p : ProblemDetails Unit) : AxumResponse Json :=
  { status := (p.status.getD STATUS_INTERNAL_SERVER_ERROR).as_u16
    headers := [("content-type", "application/problem+json")]
    body :=
      match serializeProblemDetails (fun _ => Json.null) p with
      | .ok j => j
      | .error _ => Json.null }

/-- Embeds `impl IntoResponse for XmlProblemDetails` from `src/axum.rs`: the
transport status line is the `status` field or 500 when absent; a
serialization failure instead produces a bare 500 response with no body. -/
def axumXmlIntoResponse (p : ProblemDetails Unit) : AxumResponse (Option String) :=
  match to_string_with_root "problem" (reservedXmlFields p ++ []) with
  | .ok xml =>
    { status := (p.status.getD STATUS_INTERNAL_SERVER_ERROR).as_u16
      headers := [("content-type", "application/problem+xml")]
      body := some (XML_DECLARATION ++ xml) }
  | .error _ =>
    { status := 500
      headers := []
      body := none }

/-- Modelled from the `serde` dependency: the codec of the default unit
extension payload of `ProblemDetails<()>`.  A flattened unit serializes to
nothing and its decoder ignores all leftover keys. -/
def unitExtSer : Unit → Json :=
  fun _ => .null

/-- The decoder side of the unit extension payload. -/
def unitExtDe : List (String × Json) → Except DeError Unit :=
  fun _ => .ok ()

/-- The `Extensions` struct of the repository tests
(`src/problem_details/tests.rs`): a string field `foo` and an integer field
`bar`.  The `u32` width of `bar` is abstracted to `Nat`. -/
structure TestExtensions where
  foo : String
  bar : Nat
deriving DecidableEq

/-- The derived `serde` serializer of `TestExtensions`. -/
def testExtensionsSer (e : TestExtensions) : Json :=
  .obj [("foo", .str e.foo), ("bar", .num e.bar)]

/-- The derived `serde` deserializer of `TestExtensions`, reading its two
fields out of the leftover keys handed over by the flattened record decoder. -/
def testExtensionsDe (fields : List (String × Json)) : Except DeError TestExtensions :=
  match jsonLookup "foo" fields, jsonLookup "bar" fields with
  | some (.str f), some (.num b) =>
    if 0 ≤ b then .ok ⟨f, b.toNat⟩
    else .error (.invalidValue (.signed b) "u32")
  | some _, some _ => .error (.custom "invalid type for extension field")
  | none, _ => .error (.missingField "foo")
  | _, none => .error (.missingField "bar")

/-- An extension type with a single string field named `title`: its field name
collides with a reserved member of the envelope. -/
structure TitleExtension where
  title : String

/-- The derived `serde` serializer of `TitleExtension`. -/
def titleExtensionSer (e : TitleExtension) : Json :=
  .obj [("title", .str e.title)]

/-- The derived `serde` deserializer of `TitleExtension`. -/
def titleExtensionDe (fields : List (String × Json)) : Except DeError TitleExtension :=
  match jsonLookup "title" fields with
  | some (.str t) => .ok ⟨t⟩
  | some _ => .error (.custom "invalid type for extension field")
  | none => .error (.missingField "title")

/-- Embeds `StatusCode::NOT_FOUND`. -/
def status404 : StatusCode := ⟨404, by omega⟩

/-- Embeds `StatusCode::INTERNAL_SERVER_ERROR`, as a plain code. -/
def status500 : StatusCode := ⟨500, by omega⟩

/-- The URI literal `test:type` used by the repository tests. -/
def uriTestType : Uri := ⟨"test:type", by decide⟩

/-- The problem type wrapping `test:type`. -/
def problemTypeTest : ProblemType := ⟨uriTestType⟩

/-- The URI literal `test:instance` used by the repository tests. -/
def uriTestInstance : Uri := ⟨"test:instance", by decide⟩

/-- The status code 700: within the range the `http` crate accepts, outside
the `[100, 599]` range the specification names. -/
def status700 : StatusCode := ⟨700, by omega⟩

/-- The extension payload `{foo: "Foo", bar: 42}` of the repository tests. -/
def testExt : TestExtensions := ⟨"Foo", 42⟩

/-- The serialized fields of `testExt`. -/
def testExtFields : List (String × Json) :=
  [("foo", .str "Foo"), ("bar", .num 42)]

/-- The flattening example of the specification: `title="Test Title"`,
`status=500`, extensions `{foo: "Foo", bar: 42}`. -/
def problemFlattenExample : ProblemDetails TestExtensions :=
  ((ProblemDetails.new.with_status status500).with_title "Test Title").with_extensions testExt

/-- The fully-configured value of the repository tests. -/
def problemFilled : ProblemDetails TestExtensions :=
  (((((ProblemDetails.new.with_type problemTypeTest).with_status
      status500).with_title "Test Title").with_detail "Test Detail").with_instance
      uriTestInstance).with_extensions testExt

/-- A value whose extension field name `title` collides with a reserved
member. -/
def problemCollision : ProblemDetails TitleExtension :=
  ProblemDetails.new.with_extensions ⟨"x"⟩

/-- A value whose extension payload is a bare integer scalar. -/
def problemScalarExt : ProblemDetails Int :=
  ProblemDetails.new.with_extensions (42 : Int)

/-- A concrete value with a present `instance` and the unit payload. -/
def displayWitnessLeft : ProblemDetails Unit :=
  (ProblemDetails.new.with_status status404).with_instance uriTestInstance

/-- A concrete value agreeing with `displayWitnessLeft` on the four displayed
fields but with an absent `instance` and an integer payload. -/
def displayWitnessRight : ProblemDetails Int :=
  (ProblemDetails.new.with_status status404).with_extensions (7 : Int)

theorem colon_space_append (d : String) : ":" ++ (" " ++ d) = ": " ++ d := rfl

theorem string_append_empty_right (a : String) : a ++ "" = a := by
  simp

/-- C2: for every `ProblemDetails` value, the `Display` string equals the
concatenation defined by the four-step algorithm of the specification, and the
four golden strings hold: the empty value displays as `[about:blank]`, the
status-404-only value as `[about:blank 404] Not Found`, title `T` plus detail
`D` as `[about:blank] T: D`, and type `test:type` with status 404, title `T`,
detail `D` as `[test:type 404] T: D`. -/
theorem display_matches_spec_algorithm :
    (∀ (Ext : Type) (p : ProblemDetails Ext), p.displayString = p.displaySpecString) ∧
    ProblemDetails.new.displayString = "[about:blank]" ∧
    (ProblemDetails.new.with_status status404).displayString =
      "[about:blank 404] Not Found" ∧
    ((ProblemDetails.new.with_title "T").with_detail "D").displayString =
      "[about:blank] T: D" ∧
    ((((ProblemDetails.new.with_type problemTypeTest).with_status status404).with_title
          "T").with_detail "D").displayString =
      "[test:type 404] T: D" := by
  refine ⟨?_, rfl, by decide, rfl, by decide⟩
  intro Ext p
  obtain ⟨t, s, ti, d, i, e⟩ := p
  cases s with
  | none =>
    rcases t with _ | tv <;> rcases ti with _ | tiv <;> rcases d with _ | dv <;>
      simp [ProblemDetails.displayString, ProblemDetails.displaySpecString,
        ProblemType.default, ProblemType.displayString, String.append_assoc,
        colon_space_append] <;>
      try rfl
  | some sv =>
    rcases hcr : StatusCode.canonical_reason sv with _ | cr <;>
      rcases t with _ | tv <;> rcases ti with _ | tiv <;> rcases d with _ | dv <;>
      simp [hcr, ProblemDetails.displayString, ProblemDetails.displaySpecString,
        ProblemType.default, ProblemType.displayString, String.append_assoc,
        colon_space_append] <;>
      try rfl

/-- C10: the `Display` formatter depends only on the `type`, `status`, `title`
and `detail` fields; two values agreeing on those four fields display
identically, whatever their `instance` fields and extension payloads. -/
theorem display_ignores_instance_and_extensions
    {Ext1 Ext2 : Type} (p : ProblemDetails Ext1) (q : ProblemDetails Ext2)
    (htype : p.type = q.type) (hstatus : p.status = q.status)
    (htitle : p.title = q.title) (hdetail : p.detail = q.detail) :
    p.displayString = q.displayString := by
  obtain ⟨t, s, ti, d, i, e⟩ := p
  obtain ⟨t', s', ti', d', i', e'⟩ := q
  cases htype
  cases hstatus
  cases htitle
  cases hdetail
  rfl

/-- Witness for C10: two concrete values that agree on `type`, `status`,
`title` and `detail` but differ in both `instance` and extension payload have
the same `Display` string. -/
theorem display_ignores_instance_and_extensions_witness :
    displayWitnessLeft.«instance» ≠ displayWitnessRight.«instance» ∧
    displayWitnessLeft.displayString = displayWitnessRight.displayString :=
  ⟨by decide,
    display_ignores_instance_and_extensions displayWitnessLeft displayWitnessRight
      rfl rfl rfl rfl⟩

/-- C5: `from_status_code` sets `status` to the given code and `title` to the
canonical reason phrase of the code (absent exactly when the code has none),
leaves `type`, `detail` and `instance` absent and the extensions at the unit
default; in particular the 404 value has title `Not Found`. -/
theorem from_status_code_fields :
    (∀ s : StatusCode,
      (ProblemDetails.from_status_code s).type = none ∧
      (ProblemDetails.from_status_code s).status = some s ∧
      (ProblemDetails.from_status_code s).title = s.canonical_reason ∧
      (ProblemDetails.from_status_code s).detail = none ∧
      (ProblemDetails.from_status_code s).«instance» = none ∧
      (ProblemDetails.from_status_code s).extensions = ()) ∧
    (ProblemDetails.from_status_code status404).title = some "Not Found" :=
  ⟨fun _ => ⟨rfl, rfl, rfl, rfl, rfl, rfl⟩, by decide⟩

/-- C7: each `with_` builder is a pure function returning a record equal to
the receiver except for the named field, and `with_extensions` keeps the five
reserved fields while replacing the extension slot, possibly at a different
extension type. -/
theorem builders_set_one_field :
    ∀ (Ext NewExt : Type) (p : ProblemDetails Ext) (t : ProblemType) (s : StatusCode)
      (ti d : String) (u : Uri) (e : NewExt),
      ((p.with_type t).type = some t ∧ (p.with_type t).status = p.status ∧
        (p.with_type t).title = p.title ∧ (p.with_type t).detail = p.detail ∧
        (p.with_type t).«instance» = p.«instance» ∧
        (p.with_type t).extensions = p.extensions) ∧
      ((p.with_status s).type = p.type ∧ (p.with_status s).status = some s ∧
        (p.with_status s).title = p.title ∧ (p.with_status s).detail = p.detail ∧
        (p.with_status s).«instance» = p.«instance» ∧
        (p.with_status s).extensions = p.extensions) ∧
      ((p.with_title ti).type = p.type ∧ (p.with_title ti).status = p.status ∧
        (p.with_title ti).title = some ti ∧ (p.with_title ti).detail = p.detail ∧
        (p.with_title ti).«instance» = p.«instance» ∧
        (p.with_title ti).extensions = p.extensions) ∧
      ((p.with_detail d).type = p.type ∧ (p.with_detail d).status = p.status ∧
        (p.with_detail d).title = p.title ∧ (p.with_detail d).detail = some d ∧
        (p.with_detail d).«instance» = p.«instance» ∧
        (p.with_detail d).extensions = p.extensions) ∧
      ((p.with_instance u).type = p.type ∧ (p.with_instance u).status = p.status ∧
        (p.with_instance u).title = p.title ∧ (p.with_instance u).detail = p.detail ∧
        (p.with_instance u).«instance» = some u ∧
        (p.with_instance u).extensions = p.extensions) ∧
      ((p.with_extensions e).type = p.type ∧ (p.with_extensions e).status = p.status ∧
        (p.with_extensions e).title = p.title ∧ (p.with_extensions e).detail = p.detail ∧
        (p.with_extensions e).«instance» = p.«instance» ∧
        (p.with_extensions e).extensions = e) :=
  fun _ _ _ _ _ _ _ _ _ =>
    ⟨⟨rfl, rfl, rfl, rfl, rfl, rfl⟩, ⟨rfl, rfl, rfl, rfl, rfl, rfl⟩,
      ⟨rfl, rfl, rfl, rfl, rfl, rfl⟩, ⟨rfl, rfl, rfl, rfl, rfl, rfl⟩,
      ⟨rfl, rfl, rfl, rfl, rfl, rfl⟩, ⟨rfl, rfl, rfl, rfl, rfl, rfl⟩⟩

/-- The reserved element names handed to the XML serializer are always
representable XML element names. -/
theorem reservedXmlFields_names_ok {Ext : Type} (p : ProblemDetails Ext) :
    (reservedXmlFields p).all (fun kv => xmlNameOk kv.1) = true := by
  obtain ⟨t, s, ti, d, i, e⟩ := p
  cases t <;> cases s <;> cases ti <;> cases d <;> cases i <;>
    simp [reservedXmlFields, List.all_append] <;> decide

/-- C9: the status accessor used by the HTTP-serving collaborators returns the
`status` field when present and 500 when absent, and both axum response
builders use exactly that value as the transport status line. -/
theorem status_accessor_picks_status_line :
    ∀ p : ProblemDetails Unit,
      (p.statusOr500 =
        match p.status with
        | some s => s
        | none => STATUS_INTERNAL_SERVER_ERROR) ∧
      (axumJsonIntoResponse p).status = p.statusOr500.as_u16 ∧
      (axumXmlIntoResponse p).status = p.statusOr500.as_u16 := by
  intro p
  refine ⟨?_, rfl, ?_⟩
  · obtain ⟨t, s, ti, d, i, e⟩ := p
    cases s <;> rfl
  · have h := reservedXmlFields_names_ok p
    simp [axumXmlIntoResponse, to_string_with_root, h, ProblemDetails.statusOr500,
      StatusCode.as_u16]

/-- C1 (amended to the range the `http` crate enforces): a present integer
decodes to a present status exactly when it lies in `[100, 999]`; any other
integer is rejected with an invalid-value failure carrying the offending
integer; a non-integer is rejected with an invalid-type failure carrying the
offending value; and a wholly absent `status` key decodes to the absent state
without error, as does the empty JSON object at the record level. -/
theorem status_decode_range :
    ∀ (i : Int) (s : String),
      (statusOptDeserialize (.num i) =
        if h : 100 ≤ i ∧ i < 1000 then
          .ok (some ⟨i.toNat, by omega⟩)
        else
          .error (.invalidValue (if 0 ≤ i then .unsigned i.toNat else .signed i)
            "valid status code")) ∧
      statusOptDeserialize (.str s) =
        .error (.invalidType (.str s) "valid status code") ∧
      decodeField statusOptDeserialize none = .ok (none : Option StatusCode) ∧
      deserializeProblemDetails unitExtDe (.obj []) = .ok ProblemDetails.new := by
  intro i s
  refine ⟨?_, rfl, rfl, rfl⟩
  simp only [statusOptDeserialize]
  by_cases h1 : 0 ≤ i
  · rw [if_pos h1]
    by_cases h2 : 100 ≤ i ∧ i < 1000
    · rw [dif_pos h2]
      have h3 : i.toNat < 65536 := by omega
      have h4 : 100 ≤ i.toNat ∧ i.toNat < 1000 := by omega
      simp [statusVisitU64, statusVisitU16, StatusCode.from_u16, h3, h4]
    · rw [dif_neg h2, if_pos h1]
      by_cases h3 : i.toNat < 65536
      · have h4 : ¬(100 ≤ i.toNat ∧ i.toNat < 1000) := by omega
        simp [statusVisitU64, statusVisitU16, StatusCode.from_u16, h3, h4]
      · simp [statusVisitU64, h3]
  · have h2 : ¬(100 ≤ i ∧ i < 1000) := by omega
    have h3 : ¬(0 ≤ i ∧ i < 65536) := by omega
    rw [if_neg h1, dif_neg h2, if_neg h1]
    simp [statusVisitI64, h3]

/-- Counterexample to C1 as stated: decoding the integer 700 for `status`
succeeds with a present status, instead of being rejected — the underlying
`http::StatusCode::from_u16` accepts every code in `[100, 999]`. -/
theorem status_decode_700_succeeds :
    statusOptDeserialize (Json.num 700) = .ok (some status700) := rfl

/-- C8: if the extension payload serializes to something that is neither an
object nor the unit-like `null` (a bare scalar or an array), the JSON encoder
fails with the flatten serialization error and produces no body. -/
theorem scalar_extensions_fail_json_encode :
    ∀ (Ext : Type) (ser : Ext → Json) (p : ProblemDetails Ext),
      (∀ fs, ser p.extensions ≠ .obj fs) →
      ser p.extensions ≠ .null →
      serializeProblemDetails ser p =
        .error (.Serialization "can only flatten structs and maps") := by
  intro Ext ser p hobj hnull
  unfold serializeProblemDetails
  rcases h : ser p.extensions with _ | b | n | s | a | fs
  · exact absurd h hnull
  · rfl
  · rfl
  · rfl
  · rfl
  · exact absurd h (hobj fs)

/-- Witness for C8: the value whose extension payload is the bare integer 42
fails to JSON-encode with the flatten serialization error. -/
theorem scalar_extensions_fail_json_encode_witness :
    serializeProblemDetails (fun n : Int => Json.num n) problemScalarExt =
      .error (.Serialization "can only flatten structs and maps") :=
  scalar_extensions_fail_json_encode Int (fun n => Json.num n) problemScalarExt
    (fun _ h => Json.noConfusion h) (fun h => Json.noConfusion h)


theorem except_bind_ok {ε α β : Type} (a : α) (f : α → Except ε β) :
    (Except.ok a : Except ε α) >>= f = f a := rfl

theorem jsonLookup_append (k : String) (l1 l2 : List (String × Json)) :
    jsonLookup k (l1 ++ l2) =
      match jsonLookup k l1 with
      | some v => some v
      | none => jsonLookup k l2 := by
  induction l1 with
  | nil => rfl
  | cons kv rest ih =>
    obtain ⟨k', v⟩ := kv
    simp only [List.cons_append, jsonLookup]
    by_cases h : k' = k
    · simp [h]
    · simp [h, ih]

theorem jsonLookup_none_of_all_not_reserved (k : String) (fs : List (String × Json))
    (hall : fs.all (fun kv => !reservedNames.contains kv.1) = true)
    (hk : reservedNames.contains k = true) :
    jsonLookup k fs = none := by
  induction fs with
  | nil => rfl
  | cons kv rest ih =>
    obtain ⟨k', v⟩ := kv
    simp only [List.all_cons, Bool.and_eq_true] at hall
    simp only [jsonLookup]
    have hne : ¬(k' = k) := by
      intro he
      subst he
      rw [hk] at hall
      simp at hall
    simp [hne, ih hall.2]

theorem reservedJson_lookups {Ext : Type} (p : ProblemDetails Ext) :
    jsonLookup "type" (reservedJson p) = (p.type.map fun t => Json.str t.uri.val) ∧
    jsonLookup "status" (reservedJson p) = (p.status.map fun s => Json.num s.as_u16) ∧
    jsonLookup "title" (reservedJson p) = p.title.map Json.str ∧
    jsonLookup "detail" (reservedJson p) = p.detail.map Json.str ∧
    jsonLookup "instance" (reservedJson p) = (p.«instance».map fun u => Json.str u.val) := by
  obtain ⟨t, s, ti, d, i, e⟩ := p
  cases t <;> cases s <;> cases ti <;> cases d <;> cases i <;>
    simp [reservedJson, optionalField, jsonLookup, StatusCode.as_u16]

theorem reservedJson_names {Ext : Type} (p : ProblemDetails Ext) :
    (reservedJson p).all (fun kv => reservedNames.contains kv.1) = true := by
  obtain ⟨t, s, ti, d, i, e⟩ := p
  cases t <;> cases s <;> cases ti <;> cases d <;> cases i <;>
    simp [reservedJson, optionalField, List.all_append] <;> decide

theorem reservedJson_filter_not_reserved {Ext : Type} (p : ProblemDetails Ext) :
    (reservedJson p).filter (fun kv => !reservedNames.contains kv.1) = [] := by
  obtain ⟨t, s, ti, d, i, e⟩ := p
  cases t <;> cases s <;> cases ti <;> cases d <;> cases i <;>
    simp [reservedJson, optionalField, List.filter_append] <;> decide

theorem filter_not_reserved_self (fs : List (String × Json))
    (hall : fs.all (fun kv => !reservedNames.contains kv.1) = true) :
    fs.filter (fun kv => !reservedNames.contains kv.1) = fs := by
  rw [List.filter_eq_self]
  intro a ha
  exact List.all_eq_true.mp hall a ha

theorem uriParse_val (u : Uri) : Uri.parse u.val = .ok u := by
  unfold Uri.parse
  rw [dif_pos u.2]

theorem typeOpt_roundtrip (t : ProblemType) :
    typeOptDeserialize (.str t.uri.val) = .ok (some t) := by
  simp [typeOptDeserialize, uriParse_val]

theorem uriOpt_roundtrip (u : Uri) :
    uriOptDeserialize (.str u.val) = .ok (some u) := by
  simp [uriOptDeserialize, uriParse_val]

theorem from_u16_as_u16 (s : StatusCode) : StatusCode.from_u16 s.as_u16 = some s := by
  unfold StatusCode.from_u16 StatusCode.as_u16
  rw [dif_pos s.2]

theorem statusVisitU16_as_u16 (s : StatusCode) : statusVisitU16 s.as_u16 = .ok (some s) := by
  simp [statusVisitU16, from_u16_as_u16]

theorem statusOpt_roundtrip (s : StatusCode) :
    statusOptDeserialize (.num s.as_u16) = .ok (some s) := by
  have hv : 100 ≤ s.as_u16 ∧ s.as_u16 < 1000 := s.2
  simp only [statusOptDeserialize]
  rw [if_pos (by omega : (0 : Int) ≤ (s.as_u16 : Int))]
  rw [show ((s.as_u16 : Int)).toNat = s.as_u16 from by omega]
  simp only [statusVisitU64]
  rw [if_pos (by omega : s.as_u16 < 65536)]
  exact statusVisitU16_as_u16 s

/-- C3: for every value whose extension payload flattens to an object field
list, the JSON encoding is the single flat object made of the reserved-field
list followed by the extension fields as siblings; the reserved-field list
holds each present reserved field under its literal key, no key at all for an
absent field, and nothing but reserved keys. -/
theorem json_encode_flattens :
    ∀ (Ext : Type) (ser : Ext → Json) (p : ProblemDetails Ext)
      (fs : List (String × Json)),
      flattenExtensions (ser p.extensions) = .ok fs →
      serializeProblemDetails ser p = .ok (.obj (reservedJson p ++ fs)) ∧
      jsonLookup "type" (reservedJson p) = (p.type.map fun t => Json.str t.uri.val) ∧
      jsonLookup "status" (reservedJson p) = (p.status.map fun s => Json.num s.as_u16) ∧
      jsonLookup "title" (reservedJson p) = p.title.map Json.str ∧
      jsonLookup "detail" (reservedJson p) = p.detail.map Json.str ∧
      jsonLookup "instance" (reservedJson p) =
        (p.«instance».map fun u => Json.str u.val) ∧
      (reservedJson p).all (fun kv => reservedNames.contains kv.1) = true := by
  intro Ext ser p fs h
  obtain ⟨h1, h2, h3, h4, h5⟩ := reservedJson_lookups p
  refine ⟨?_, h1, h2, h3, h4, h5, reservedJson_names p⟩
  simp [serializeProblemDetails, h]

/-- Witness for C3: the specification example with `title="Test Title"`,
`status=500` and extensions `{foo: "Foo", bar: 42}` encodes to exactly the
flat object `{"status":500,"title":"Test Title","foo":"Foo","bar":42}`. -/
theorem json_encode_flattens_witness :
    flattenExtensions (testExtensionsSer problemFlattenExample.extensions) =
      .ok testExtFields ∧
    (serializeProblemDetails testExtensionsSer problemFlattenExample =
      .ok (.obj (reservedJson problemFlattenExample ++ testExtFields)) ∧
      jsonLookup "type" (reservedJson problemFlattenExample) =
        (problemFlattenExample.type.map fun t => Json.str t.uri.val) ∧
      jsonLookup "status" (reservedJson problemFlattenExample) =
        (problemFlattenExample.status.map fun s => Json.num s.as_u16) ∧
      jsonLookup "title" (reservedJson problemFlattenExample) =
        problemFlattenExample.title.map Json.str ∧
      jsonLookup "detail" (reservedJson problemFlattenExample) =
        problemFlattenExample.detail.map Json.str ∧
      jsonLookup "instance" (reservedJson problemFlattenExample) =
        (problemFlattenExample.«instance».map fun u => Json.str u.val) ∧
      (reservedJson problemFlattenExample).all
        (fun kv => reservedNames.contains kv.1) = true) ∧
    Json.obj (reservedJson problemFlattenExample ++ testExtFields) =
      Json.obj
        [("status", Json.num 500), ("title", Json.str "Test Title"),
          ("foo", Json.str "Foo"), ("bar", Json.num 42)] :=
  ⟨rfl,
    json_encode_flattens TestExtensions testExtensionsSer problemFlattenExample
      testExtFields rfl,
    rfl⟩

theorem testExtensions_flatten_disjoint :
    ∀ e : TestExtensions,
      ∃ fs, flattenExtensions (testExtensionsSer e) = .ok fs ∧
        fs.all (fun kv => !reservedNames.contains kv.1) = true := by
  intro e
  refine ⟨[("foo", .str e.foo), ("bar", .num e.bar)], rfl, ?_⟩
  simp [reservedNames]

theorem testExtensions_roundtrip :
    ∀ (e : TestExtensions) (fs : List (String × Json)),
      flattenExtensions (testExtensionsSer e) = .ok fs →
      testExtensionsDe fs = .ok e := by
  intro e fs h
  simp only [testExtensionsSer, flattenExtensions, Except.ok.injEq] at h
  subst h
  simp [testExtensionsDe, jsonLookup]

/-- C4 (amended with the non-collision invariant of the data model): for every
extension codec that flattens each payload to an object whose keys avoid the
five reserved member names and that recovers every payload from its flattened
fields, decoding the JSON encoding of any `ProblemDetails` value returns the
original value. -/
theorem json_roundtrip
    (Ext : Type) (ser : Ext → Json) (de : List (String × Json) → Except DeError Ext)
    (hobj : ∀ e, ∃ fs, flattenExtensions (ser e) = .ok fs ∧
      fs.all (fun kv => !reservedNames.contains kv.1) = true)
    (hrt : ∀ e fs, flattenExtensions (ser e) = .ok fs → de fs = .ok e)
    (p : ProblemDetails Ext) :
    ∃ j, serializeProblemDetails ser p = .ok j ∧
      deserializeProblemDetails de j = .ok p := by
  obtain ⟨fs, hser, hdisj⟩ := hobj p.extensions
  refine ⟨.obj (reservedJson p ++ fs), by simp [serializeProblemDetails, hser], ?_⟩
  obtain ⟨hT, hS, hTi, hD, hI⟩ := reservedJson_lookups p
  have hfT := jsonLookup_none_of_all_not_reserved "type" fs hdisj (by decide)
  have hfS := jsonLookup_none_of_all_not_reserved "status" fs hdisj (by decide)
  have hfTi := jsonLookup_none_of_all_not_reserved "title" fs hdisj (by decide)
  have hfD := jsonLookup_none_of_all_not_reserved "detail" fs hdisj (by decide)
  have hfI := jsonLookup_none_of_all_not_reserved "instance" fs hdisj (by decide)
  have decT :
      decodeField typeOptDeserialize (jsonLookup "type" (reservedJson p ++ fs)) =
        .ok p.type := by
    rw [jsonLookup_append, hT]
    cases htp : p.type with
    | none => simp [hfT, decodeField]
    | some t => simp [decodeField, typeOpt_roundtrip]
  have decS :
      decodeField statusOptDeserialize (jsonLookup "status" (reservedJson p ++ fs)) =
        .ok p.status := by
    rw [jsonLookup_append, hS]
    cases hst : p.status with
    | none => simp [hfS, decodeField]
    | some s => simp [decodeField, statusOpt_roundtrip]
  have decTi :
      decodeField stringOptDeserialize (jsonLookup "title" (reservedJson p ++ fs)) =
        .ok p.title := by
    rw [jsonLookup_append, hTi]
    cases hti : p.title with
    | none => simp [hfTi, decodeField]
    | some t => simp [decodeField, stringOptDeserialize]
  have decD :
      decodeField stringOptDeserialize (jsonLookup "detail" (reservedJson p ++ fs)) =
        .ok p.detail := by
    rw [jsonLookup_append, hD]
    cases hd : p.detail with
    | none => simp [hfD, decodeField]
    | some d => simp [decodeField, stringOptDeserialize]
  have decI :
      decodeField uriOptDeserialize (jsonLookup "instance" (reservedJson p ++ fs)) =
        .ok p.«instance» := by
    rw [jsonLookup_append, hI]
    cases hi : p.«instance» with
    | none => simp [hfI, decodeField]
    | some u => simp [decodeField, uriOpt_roundtrip]
  have decFlt :
      (reservedJson p ++ fs).filter (fun kv => !reservedNames.contains kv.1) = fs := by
    rw [List.filter_append, reservedJson_filter_not_reserved,
      filter_not_reserved_self fs hdisj]
    simp
  have decE :
      de ((reservedJson p ++ fs).filter (fun kv => !reservedNames.contains kv.1)) =
        .ok p.extensions := by
    rw [decFlt]
    exact hrt p.extensions fs hser
  simp only [deserializeProblemDetails, decT, decS, decTi, decD, decI, decE,
    except_bind_ok]

/-- Witness for C4: the fully-configured test value with extensions
`{foo: "Foo", bar: 42}` JSON round-trips. -/
theorem json_roundtrip_witness :
    ∃ j, serializeProblemDetails testExtensionsSer problemFilled = .ok j ∧
      deserializeProblemDetails testExtensionsDe j = .ok problemFilled :=
  json_roundtrip TestExtensions testExtensionsSer testExtensionsDe
    testExtensions_flatten_disjoint testExtensions_roundtrip problemFilled

/-- Counterexample to C4 as stated: the extension type with single field
`title` round-trips on its own through the flattened JSON representation, yet
for the value carrying payload `{title: "x"}` the decode of the encode fails —
the colliding key is consumed by the reserved `title` member, leaving the
extension decoder with a missing field. -/
theorem json_roundtrip_collision_counterexample :
    flattenExtensions (titleExtensionSer ⟨"x"⟩) = .ok [("title", Json.str "x")] ∧
    titleExtensionDe [("title", Json.str "x")] = .ok ⟨"x"⟩ ∧
    serializeProblemDetails titleExtensionSer problemCollision =
      .ok (Json.obj [("title", Json.str "x")]) ∧
    deserializeProblemDetails titleExtensionDe (Json.obj [("title", Json.str "x")]) =
      .error (.missingField "title") :=
  ⟨rfl, rfl, rfl, rfl⟩

/-- C6 (XML rendering modelled from the spec, the serializer living in the
external `quick_xml` crate): for every value whose extension payload is
XML-representable, the body is the XML declaration immediately followed, with
no inserted whitespace, by the root element `problem` whose children are the
present reserved fields in the fixed order `type`, `status`, `title`,
`detail`, `instance` (each omitted when absent) followed by the flattened
extension elements. -/
theorem xml_encode_shape :
    ∀ (Ext : Type) (serx : Ext → Except XmlError (List (String × String)))
      (p : ProblemDetails Ext) (ef : List (String × String)),
      serx p.extensions = .ok ef →
      ef.all (fun kv => xmlNameOk kv.1) = true →
      XmlProblemDetails.to_body_string serx p =
        .ok (XML_DECLARATION ++
          ("<problem>" ++
            (String.join
              ((reservedXmlFields p ++ ef).map fun kv => renderXmlElement kv.1 kv.2) ++
              "</problem>"))) := by
  intro Ext serx p ef hser hef
  have hall : (reservedXmlFields p ++ ef).all (fun kv => xmlNameOk kv.1) = true := by
    rw [List.all_append, reservedXmlFields_names_ok p, hef]
    rfl
  simp only [XmlProblemDetails.to_body_string, to_string_with_root, hser]
  rw [if_pos hall]
  simp only [String.append_assoc]
  rfl

/-- Witness for C6: the fully-empty value XML-encodes to the declaration
immediately followed by `<problem></problem>`. -/
theorem xml_encode_shape_witness :
    XmlProblemDetails.to_body_string (fun _ : Unit => .ok []) ProblemDetails.new =
      .ok (XML_DECLARATION ++
        ("<problem>" ++
          (String.join
            ((reservedXmlFields ProblemDetails.new ++ []).map
              fun kv : String × String => renderXmlElement kv.1 kv.2) ++
            "</problem>"))) ∧
    XML_DECLARATION ++
        ("<problem>" ++
          (String.join
            ((reservedXmlFields ProblemDetails.new ++ []).map
              fun kv : String × String => renderXmlElement kv.1 kv.2) ++
            "</problem>")) =
      "<?xml version=\"1.0\" encoding=\"UTF-8\"?><problem></problem>" :=
  ⟨xml_encode_shape Unit (fun _ => .ok []) ProblemDetails.new [] rfl rfl, rfl⟩
